import Mathlib

/-!
Shallow embedding of the chips-indexer DEX order processor
(`kadena_indexer/dex/{utils,event_processor,main_processor,database}.py`).

Python floats are modelled as exact rationals (`ℚ`); MongoDB documents for
orders and trades are Lean structures; the orders collection is a list of
orders keyed by `orderId`; Mongo `$set` updates are modelled as field patches
applied to the currently stored document; `$setOnInsert` with upsert is
modelled as insert-if-absent.
-/

namespace ChipsIndexer

/-- A raw positional event parameter, as delivered by Mongo.  `num` covers
Python `Decimal128`, `Decimal`, `int` and `float` values; `timeObj` models the
`{'timep': t}` time dictionaries. -/
inductive Value where
  | str (s : String)
  | num (q : ℚ)
  | boolV (b : Bool)
  | timeObj (t : String)
  deriving Repr, DecidableEq, Inhabited

/-- Python `str(v)`.  `str()` of a number, boolean or time dictionary is never
the empty string. -/
def pyStr : Value → String
  | .str s => s
  | .num q => toString q
  | .boolV b => if b then "True" else "False"
  | .timeObj t => "time:" ++ t

/-- Python falsiness test `not str(v)` used by the validators. -/
def pyStrEmpty (v : Value) : Bool :=
  pyStr v == ""

/-- Python `bool(v)` truthiness (a time dictionary with a `timep` key is a
non-empty dict, hence truthy). -/
def pyBool : Value → Bool
  | .str s => s ≠ ""
  | .num q => q ≠ 0
  | .boolV b => b
  | .timeObj _ => true

/-- Accumulate a digit string into a natural number; `none` on a non-digit. -/
def parseDigitsAcc : List Char → Nat → Option Nat
  | [], acc => some acc
  | c :: cs, acc =>
    if c.isDigit then parseDigitsAcc cs (acc * 10 + (c.toNat - 48)) else none

/-- Parse an unsigned decimal numeral split at the decimal point. -/
def parseUnsigned (ip fp : List Char) : Option ℚ :=
  if ip.isEmpty && fp.isEmpty then none
  else
    match parseDigitsAcc ip 0, parseDigitsAcc fp 0 with
    | some i, some f => some ((i : ℚ) + (f : ℚ) / (10 : ℚ) ^ fp.length)
    | _, _ => none

/-- Parse Python `float(s)` on a plain decimal numeral (optional sign, digits,
optional fractional part); `none` models the `ValueError` raised otherwise. -/
def parseDecimalString (s : String) : Option ℚ :=
  let go : List Char → Option ℚ := fun cs =>
    let ip := cs.takeWhile Char.isDigit
    let rest := cs.dropWhile Char.isDigit
    match rest with
    | [] => parseUnsigned ip []
    | '.' :: fp => if fp.all Char.isDigit then parseUnsigned ip fp else none
    | _ => none
  match s.toList with
  | '-' :: t => (go t).map (fun q => -q)
  | '+' :: t => go t
  | t => go t

/-- `utils.safe_decimal_to_float`: `none` models a raised
`ValueError`/`TypeError` (e.g. `float()` of a non-numeric string or of a time
dictionary); Python `bool` is an `int`, so it converts to 0 or 1. -/
def safe_decimal_to_float : Value → Option ℚ
  | .num q => some q
  | .boolV b => some (if b then 1 else 0)
  | .str s => parseDecimalString s
  | .timeObj _ => none

/-- `utils.normalize_pair`: replace the slash separator by a hyphen
(`pair.replace('/', '-')` replaces the single character `/` everywhere). -/
def normalize_pair (p : String) : String :=
  String.mk (p.toList.map (fun c => if c = '/' then '-' else c))

/-- `utils.extract_timestamp`: a time dictionary yields its `timep` field, a
string is kept, anything else is stringified. -/
def extract_timestamp : Value → String
  | .timeObj t => t
  | .str s => s
  | v => pyStr v

/-- `utils.validate_place_order_params`.  The three numeric conversions of the
`try` block run before the range checks; a conversion failure yields the
`Invalid parameter types` rejection. -/
def validate_place_order_params (params : List Value) : Bool × String :=
  if params.length < 8 then
    (false, "Expected at least 8 parameters for PLACE_ORDER")
  else
    match safe_decimal_to_float (params.getD 2 default),
          safe_decimal_to_float (params.getD 3 default),
          safe_decimal_to_float (params.getD 7 default) with
    | some amount, some price, some dollarValue =>
      if pyStrEmpty (params.getD 0 default) then (false, "Account cannot be empty")
      else if pyStrEmpty (params.getD 1 default) then (false, "Order ID cannot be empty")
      else if amount ≤ 0 then (false, "Amount must be positive")
      else if price ≤ 0 then (false, "Price must be positive")
      else if pyStrEmpty (params.getD 6 default) then (false, "Pair cannot be empty")
      else if dollarValue ≤ 0 then (false, "Dollar value must be positive")
      else (true, "")
    | _, _, _ => (false, "Invalid parameter types")

/-- `utils.validate_match_order_params`. -/
def validate_match_order_params (params : List Value) : Bool × String :=
  if params.length < 10 then
    (false, "Expected at least 10 parameters for MATCH_ORDER")
  else
    match safe_decimal_to_float (params.getD 3 default),
          safe_decimal_to_float (params.getD 4 default),
          safe_decimal_to_float (params.getD 8 default),
          safe_decimal_to_float (params.getD 9 default) with
    | some amount, some price, some dollarValue, some fee =>
      if pyStrEmpty (params.getD 0 default) then (false, "Maker account cannot be empty")
      else if pyStrEmpty (params.getD 1 default) then (false, "Taker account cannot be empty")
      else if pyStrEmpty (params.getD 2 default) then (false, "Order ID cannot be empty")
      else if amount ≤ 0 then (false, "Amount must be positive")
      else if price ≤ 0 then (false, "Price must be positive")
      else if pyStrEmpty (params.getD 7 default) then (false, "Pair cannot be empty")
      else if dollarValue ≤ 0 then (false, "Dollar value must be positive")
      else if fee < 0 then (false, "Fee cannot be negative")
      else (true, "")
    | _, _, _, _ => (false, "Invalid parameter types")

/-- `utils.validate_cancel_order_params`. -/
def validate_cancel_order_params (params : List Value) : Bool × String :=
  if params.length < 4 then
    (false, "Expected at least 4 parameters for CANCEL_ORDER")
  else
    match safe_decimal_to_float (params.getD 3 default) with
    | some amount =>
      if pyStrEmpty (params.getD 0 default) then (false, "Account cannot be empty")
      else if pyStrEmpty (params.getD 1 default) then (false, "Order ID cannot be empty")
      else if pyStrEmpty (params.getD 2 default) then (false, "Token returned cannot be empty")
      else if amount < 0 then (false, "Amount cannot be negative")
      else (true, "")
    | none => (false, "Invalid parameter types")

/-! ## Data model: orders, trades, events (`event_processor.py`) -/

/-- An order document, with exactly the fields built by
`process_place_order_event` (lines 30–59).  `amount` is the remaining amount.
Heights are naturals; times are strings. -/
structure Order where
  orderId : String
  account : String
  pair : String
  originalAmount : ℚ
  amount : ℚ
  filledAmount : ℚ
  price : ℚ
  isAsk : Bool
  orderType : String
  orderTime : String
  height : Nat
  blockTime : Option String
  txId : Option String
  status : String
  fillPercentage : ℚ
  averageFillPrice : ℚ
  totalFillValue : ℚ
  totalDollarValue : ℚ
  totalFees : ℚ
  numberOfFills : Nat
  lastFillTime : Option String
  lastFillHeight : Option Nat
  createdAt : String
  lastUpdated : Nat
  cancelledAt : Option String
  cancelReason : Option String
  tokenReturned : Option String
  amountReturned : Option ℚ
  deriving Repr, DecidableEq, Inhabited

/-- A trade document, with exactly the fields built by
`process_match_order_event` (lines 148–168). -/
structure Trade where
  orderId : String
  pair : String
  maker : String
  taker : String
  makerAccount : String
  takerAccount : String
  amount : ℚ
  price : ℚ
  dollarValue : ℚ
  fee : ℚ
  isAsk : Bool
  orderType : String
  tradeTime : String
  height : Nat
  blockTime : Option String
  txId : Option String
  tradeValue : ℚ
  netValue : ℚ
  createdAt : String
  deriving Repr, DecidableEq, Inhabited

/-- Typed PLACE_ORDER event fields extracted from `event_params[0..7]`. -/
structure PlaceEvent where
  account : String
  orderId : String
  amount : ℚ
  price : ℚ
  isAsk : Bool
  orderTime : String
  pair : String
  dollarValue : ℚ
  deriving Repr, DecidableEq, Inhabited

/-- Typed MATCH_ORDER event fields extracted from `event_params[0..9]`. -/
structure MatchEvent where
  maker : String
  taker : String
  orderId : String
  amount : ℚ
  price : ℚ
  isAsk : Bool
  orderTime : String
  pair : String
  dollarValue : ℚ
  fee : ℚ
  deriving Repr, DecidableEq, Inhabited

/-- Typed CANCEL_ORDER event fields extracted from `event_params[0..3]`. -/
structure CancelEvent where
  account : String
  orderId : String
  tokenReturned : String
  amountReturned : ℚ
  deriving Repr, DecidableEq, Inhabited

/-- Field extraction of `process_place_order_event` (lines 19–28); `none`
models the exception path on too few parameters or a failed conversion
(caught, logged, event dropped). -/
def parsePlaceParams (params : List Value) : Option PlaceEvent :=
  if params.length < 8 then none
  else
    match safe_decimal_to_float (params.getD 2 default),
          safe_decimal_to_float (params.getD 3 default),
          safe_decimal_to_float (params.getD 7 default) with
    | some amount, some price, some dollarValue =>
      some { account := pyStr (params.getD 0 default)
             orderId := pyStr (params.getD 1 default)
             amount := amount
             price := price
             isAsk := pyBool (params.getD 4 default)
             orderTime := extract_timestamp (params.getD 5 default)
             pair := normalize_pair (pyStr (params.getD 6 default))
             dollarValue := dollarValue }
    | _, _, _ => none

/-- Field extraction of `process_match_order_event` (lines 76–87). -/
def parseMatchParams (params : List Value) : Option MatchEvent :=
  if params.length < 10 then none
  else
    match safe_decimal_to_float (params.getD 3 default),
          safe_decimal_to_float (params.getD 4 default),
          safe_decimal_to_float (params.getD 8 default),
          safe_decimal_to_float (params.getD 9 default) with
    | some amount, some price, some dollarValue, some fee =>
      some { maker := pyStr (params.getD 0 default)
             taker := pyStr (params.getD 1 default)
             orderId := pyStr (params.getD 2 default)
             amount := amount
             price := price
             isAsk := pyBool (params.getD 5 default)
             orderTime := extract_timestamp (params.getD 6 default)
             pair := normalize_pair (pyStr (params.getD 7 default))
             dollarValue := dollarValue
             fee := fee }
    | _, _, _, _ => none

/-- Field extraction of `process_cancel_order_event` (lines 180–183). -/
def parseCancelParams (params : List Value) : Option CancelEvent :=
  if params.length < 4 then none
  else
    match safe_decimal_to_float (params.getD 3 default) with
    | some amountReturned =>
      some { account := pyStr (params.getD 0 default)
             orderId := pyStr (params.getD 1 default)
             tokenReturned := pyStr (params.getD 2 default)
             amountReturned := amountReturned }
    | none => none

/-! ## State engine (`event_processor.py`) -/

/-- The `order_data` document built by `process_place_order_event`
(lines 30–59). -/
def placeOrderData (e : PlaceEvent) (height : Nat)
    (blockTime : Option String) (txId : Option String) : Order :=
  { orderId := e.orderId
    account := e.account
    pair := e.pair
    originalAmount := e.amount
    amount := e.amount
    filledAmount := 0
    price := e.price
    isAsk := e.isAsk
    orderType := if e.isAsk then "ask" else "bid"
    orderTime := e.orderTime
    height := height
    blockTime := blockTime
    txId := txId
    status := "active"
    fillPercentage := 0
    averageFillPrice := 0
    totalFillValue := 0
    totalDollarValue := e.dollarValue
    totalFees := 0
    numberOfFills := 0
    lastFillTime := none
    lastFillHeight := none
    createdAt := blockTime.getD e.orderTime
    lastUpdated := height
    cancelledAt := none
    cancelReason := none
    tokenReturned := none
    amountReturned := none }

/-- The `$set` update of `process_match_order_event` (lines 96–139): all new
values are computed from the order `o` read by `find_one`, and the listed
fields are then set on the currently stored document `cur`. -/
def matchPatch (o : Order) (e : MatchEvent) (height : Nat) : Order → Order :=
  let newFilledAmount := o.filledAmount + e.amount
  let newRemainingAmount := o.originalAmount - newFilledAmount
  let newNumberOfFills := o.numberOfFills + 1
  let newTotalValue := o.totalFillValue + e.amount * e.price
  let newAverageFillPrice :=
    if newFilledAmount > 0 then newTotalValue / newFilledAmount else 0
  let newTotalDollarValue := o.totalDollarValue + e.dollarValue
  let newTotalFees := o.totalFees + e.fee
  let fillPercentage :=
    if o.originalAmount > 0 then newFilledAmount / o.originalAmount * 100 else 0
  let newStatus :=
    if newRemainingAmount ≤ 1/1000 then "filled"
    else if newFilledAmount > 0 then "partially_filled"
    else o.status
  let finalRemainingAmount :=
    if newRemainingAmount ≤ 1/1000 then (0 : ℚ)
    else newRemainingAmount
  fun cur =>
    { cur with
      amount := finalRemainingAmount
      filledAmount := newFilledAmount
      fillPercentage := fillPercentage
      averageFillPrice := newAverageFillPrice
      totalFillValue := newTotalValue
      totalDollarValue := newTotalDollarValue
      totalFees := newTotalFees
      numberOfFills := newNumberOfFills
      lastFillTime := some e.orderTime
      lastFillHeight := some height
      status := newStatus
      lastUpdated := height }

/-- The order as updated by one MATCH applied to itself (`find_one` returned
`o` and the queued `$set` is executed on the unchanged document). -/
def matchUpdatedOrder (o : Order) (e : MatchEvent) (height : Nat) : Order :=
  matchPatch o e height o

/-- The `trade_data` record of `process_match_order_event` (lines 148–168). -/
def tradeData (e : MatchEvent) (height : Nat)
    (blockTime : Option String) (txId : Option String) : Trade :=
  { orderId := e.orderId
    pair := e.pair
    maker := e.maker
    taker := e.taker
    makerAccount := e.maker
    takerAccount := e.taker
    amount := e.amount
    price := e.price
    dollarValue := e.dollarValue
    fee := e.fee
    isAsk := e.isAsk
    orderType := if e.isAsk then "ask" else "bid"
    tradeTime := e.orderTime
    height := height
    blockTime := blockTime
    txId := txId
    tradeValue := e.amount * e.price
    netValue := e.amount * e.price - e.fee
    createdAt := blockTime.getD e.orderTime }

/-- The `$set` update of `process_cancel_order_event` (lines 200–207).
`cancelledAt` is `block_time or datetime.utcnow()`; the wall clock is
modelled by the placeholder string. -/
def cancelPatch (e : CancelEvent) (height : Nat)
    (blockTime : Option String) : Order → Order :=
  fun cur =>
    { cur with
      status := "cancelled"
      cancelledAt := some (blockTime.getD "utcnow")
      cancelReason := some "user_cancelled"
      tokenReturned := some e.tokenReturned
      amountReturned := some e.amountReturned
      lastUpdated := height }

/-- The order as updated by one CANCEL applied to itself. -/
def cancelUpdatedOrder (o : Order) (e : CancelEvent) (height : Nat)
    (blockTime : Option String) : Order :=
  cancelPatch e height blockTime o

/-! ## The orders store and queued batch updates -/

/-- The orders collection: a list of order documents; `orderId` carries a
unique index, so `find_one` is the first (only) match. -/
abbrev OrderStore := List Order

/-- Mongo `find_one({"orderId": id})`. -/
def findOrder (s : OrderStore) (id : String) : Option Order :=
  s.find? (fun o => o.orderId == id)

/-- One queued entry of `self.order_updates` (executed later by
`execute_batch_updates`).  `upsertOnInsert` is the PLACE path
(`$setOnInsert` + `upsert=True`); `setFields` is the MATCH path
(`$set`, filter by `orderId`); `setFieldsByAccount` is the CANCEL path
(`$set`, filter by `orderId` and `account`). -/
inductive QueuedUpdate where
  | upsertOnInsert (orderId : String) (data : Order)
  | setFields (orderId : String) (patch : Order → Order)
  | setFieldsByAccount (orderId : String) (account : String) (patch : Order → Order)

/-- Execute one queued update against the store
(`execute_batch_updates`, lines 224–238).  An upsert whose filter matches
leaves the document alone (`$setOnInsert`); otherwise it inserts `data`.
A `$set` update patches every matching document (at most one, by the unique
`orderId` index). -/
def executeOrderUpdate (s : OrderStore) : QueuedUpdate → OrderStore
  | .upsertOnInsert id data =>
    if (findOrder s id).isSome then s else s ++ [data]
  | .setFields id patch =>
    s.map (fun o => if o.orderId == id then patch o else o)
  | .setFieldsByAccount id acct patch =>
    s.map (fun o => if o.orderId == id && o.account == acct then patch o else o)

/-- `process_place_order_event` as a queued-update producer: `none` when the
event is dropped inside its `try`/`except`. -/
def processPlaceOrderEvent (params : List Value) (height : Nat)
    (blockTime : Option String) (txId : Option String) : Option QueuedUpdate :=
  (parsePlaceParams params).map fun e =>
    .upsertOnInsert e.orderId (placeOrderData e height blockTime txId)

/-- `process_match_order_event` as a queued-update producer: reads the current
order from the store snapshot `db`; `none` when the parameters fail to parse
or the order does not exist (logged, event dropped). -/
def processMatchOrderEvent (db : OrderStore) (params : List Value) (height : Nat)
    (blockTime : Option String) (txId : Option String) :
    Option (QueuedUpdate × Trade) :=
  match parseMatchParams params with
  | none => none
  | some e =>
    match findOrder db e.orderId with
    | none => none
    | some o =>
      some (.setFields e.orderId (matchPatch o e height),
            tradeData e height blockTime txId)

/-- `process_cancel_order_event` as a queued-update producer: `none` when the
parameters fail to parse, the order does not exist, or the event's account
differs from the order's account (all logged and dropped). -/
def processCancelOrderEvent (db : OrderStore) (params : List Value) (height : Nat)
    (blockTime : Option String) : Option QueuedUpdate :=
  match parseCancelParams params with
  | none => none
  | some e =>
    match findOrder db e.orderId with
    | none => none
    | some o =>
      if o.account ≠ e.account then none
      else some (.setFieldsByAccount e.orderId e.account (cancelPatch e height blockTime))

/-- Single-event PLACE application at the store level: queue the upsert and
execute it (the composition of `process_place_order_event` and
`execute_batch_updates` for this one event). -/
def applyPlace (s : OrderStore) (params : List Value) (height : Nat)
    (blockTime : Option String) (txId : Option String) : OrderStore :=
  match processPlaceOrderEvent params height blockTime txId with
  | none => s
  | some qu => executeOrderUpdate s qu

/-- Single-event CANCEL application at the store level. -/
def applyCancel (s : OrderStore) (params : List Value) (height : Nat)
    (blockTime : Option String) : OrderStore :=
  match processCancelOrderEvent s params height blockTime with
  | none => s
  | some qu => executeOrderUpdate s qu

/-- A sequence of MATCH events applied one by one to a single order (each at
its own committed height, so every `find_one` sees the previous result). -/
def applyMatchesToOrder (o : Order) (ms : List (MatchEvent × Nat)) : Order :=
  ms.foldl (fun acc p => matchUpdatedOrder acc p.1 p.2) o

/-! ## Scheduler and main loop (`main_processor.py`) -/

/-- The three event kinds, as tagged by `fetch_and_organize_events`. -/
inductive EventKind where
  | PLACE
  | MATCH
  | CANCEL
  deriving Repr, DecidableEq, Inhabited

/-- A raw event as organized into `events_by_height`. -/
structure RawEvent where
  kind : EventKind
  height : Nat
  params : List Value
  blockTime : Option String
  txId : Option String
  deriving Repr, DecidableEq, Inhabited

/-- The `event_priority` map of `process_events_by_height` (line 61). -/
def eventPriority (e : RawEvent) : Nat :=
  match e.kind with
  | .PLACE => 0
  | .MATCH => 1
  | .CANCEL => 2

/-- `events.sort(key=...)` (line 62): Python's `list.sort` is a stable sort by
the priority key; `List.insertionSort` with `key a ≤ key b` inserts each
element after all strictly smaller keys and before equal keys seen later,
which is exactly stable sorting. -/
def sortEventsForHeight (l : List RawEvent) : List RawEvent :=
  List.insertionSort (fun a b => eventPriority a ≤ eventPriority b) l

/-- `sorted(events_by_height.keys())` (line 52): the ascending order in which
the heights of a batch are visited. -/
def sortedHeights (ebh : List (Nat × List RawEvent)) : List Nat :=
  List.insertionSort (fun a b => a ≤ b) (ebh.map (fun p => p.1))

/-- The accumulated `order_updates`/`trade_inserts` queues for one height. -/
structure Batch where
  orderUpdates : List QueuedUpdate
  tradeInserts : List Trade

/-- Dispatch of one event inside the per-height loop (lines 64–95): validate,
drop invalid events, and let the matching `process_*` handler queue its
mutation.  `db` is the store as committed before this height (queued updates
are not visible to `find_one`). -/
def processOneEvent (db : OrderStore) (height : Nat) (b : Batch)
    (ev : RawEvent) : Batch :=
  match ev.kind with
  | .PLACE =>
    if (validate_place_order_params ev.params).1 then
      match processPlaceOrderEvent ev.params height ev.blockTime ev.txId with
      | none => b
      | some qu => { b with orderUpdates := b.orderUpdates ++ [qu] }
    else b
  | .MATCH =>
    if (validate_match_order_params ev.params).1 then
      match processMatchOrderEvent db ev.params height ev.blockTime ev.txId with
      | none => b
      | some (qu, tr) =>
        { orderUpdates := b.orderUpdates ++ [qu]
          tradeInserts := b.tradeInserts ++ [tr] }
    else b
  | .CANCEL =>
    if (validate_cancel_order_params ev.params).1 then
      match processCancelOrderEvent db ev.params height ev.blockTime with
      | none => b
      | some qu => { b with orderUpdates := b.orderUpdates ++ [qu] }
    else b

/-- All events of one height, sorted by kind priority and folded through the
dispatcher into the pending batch. -/
def processHeightEvents (db : OrderStore) (height : Nat)
    (evs : List RawEvent) : Batch :=
  (sortEventsForHeight evs).foldl (processOneEvent db height) ⟨[], []⟩

/-- `execute_batch_updates` (lines 220–251) on the success path: apply the
queued order updates in order, then append the queued trade inserts. -/
def executeBatch (s : OrderStore) (trades : List Trade) (b : Batch) :
    OrderStore × List Trade :=
  (b.orderUpdates.foldl executeOrderUpdate s, trades ++ b.tradeInserts)

/-! ## Watermark (`database.py`) -/

/-- The outcome of the `find_one({"_id": "last_order_height"})` read. -/
inductive WatermarkRead where
  | ok (v : Option Nat)
  | err
  deriving Repr, DecidableEq, Inhabited

/-- `DatabaseManager.get_last_processed_height` (lines 33–40): the stored
value when the document exists, 0 when it is absent, and 0 again when the
read itself raises (the exception is caught and logged). -/
def get_last_processed_height : WatermarkRead → Nat
  | .ok (some v) => v
  | .ok none => 0
  | .err => 0

/-- Which store calls fail during a run: `batchFails h` means
`execute_batch_updates` raises at height `h`; `watermarkWriteFails h` means
the `update_one` inside `update_last_processed_height` raises at height `h`. -/
structure FailureModel where
  batchFails : Nat → Bool
  watermarkWriteFails : Nat → Bool

/-- `DatabaseManager.update_last_processed_height` (lines 42–52): on success
the watermark becomes `height`; on a write failure the exception is caught
and logged, the function returns normally and the stored watermark keeps its
previous value. -/
def update_last_processed_height (fm : FailureModel) (height : Nat)
    (wm : Nat) : Nat :=
  if fm.watermarkWriteFails height then wm else height

/-- The durable state threaded through a run. -/
structure RunState where
  store : OrderStore
  trades : List Trade
  watermark : Nat

/-- The per-height loop of `process_events_by_height` (lines 52–101) under a
failure model: process and queue the height's events, execute the batch
(re-raising on a store failure, which aborts the run with the watermark
untouched), then write the watermark (whose own failure is swallowed).  The
returned `Bool` is whether an exception propagated out of the loop. -/
def runLoop (fm : FailureModel) (ebh : List (Nat × List RawEvent)) :
    List Nat → RunState → RunState × Bool
  | [], st => (st, false)
  | h :: hs, st =>
    let evs := ((ebh.find? (fun p => p.1 == h)).map (fun p => p.2)).getD []
    let batch := processHeightEvents st.store h evs
    if fm.batchFails h then (st, true)
    else
      let st2 := executeBatch st.store st.trades batch
      let wm2 := update_last_processed_height fm h st.watermark
      runLoop fm ebh hs ⟨st2.1, st2.2, wm2⟩

/-- A whole `process_events_by_height` run over a batch of fetched events. -/
def runAll (fm : FailureModel) (ebh : List (Nat × List RawEvent))
    (st : RunState) : RunState × Bool :=
  runLoop fm ebh (sortedHeights ebh) st

/-! ## Store-call trace of the success path (for the commit-ordering claim) -/

/-- The three store-mutating steps the loop performs for one height, in the
order the code performs them. -/
inductive StoreAction where
  | applyOrderUpdates (h : Nat)
  | insertTrades (h : Nat)
  | writeWatermark (h : Nat)
  deriving Repr, DecidableEq

/-- The height an action belongs to. -/
def StoreAction.heightOf : StoreAction → Nat
  | .applyOrderUpdates h => h
  | .insertTrades h => h
  | .writeWatermark h => h

/-- The store calls emitted while the loop walks a list of heights: for each
height, `execute_batch_updates` applies the order updates, then inserts the
trades, and only then is the watermark advanced. -/
def heightTrace : List Nat → List StoreAction
  | [] => []
  | h :: hs =>
    .applyOrderUpdates h :: .insertTrades h :: .writeWatermark h :: heightTrace hs

/-- The full store-call trace of a failure-free run over a batch. -/
def runTrace (ebh : List (Nat × List RawEvent)) : List StoreAction :=
  heightTrace (sortedHeights ebh)

/-- The `{"height": {"$gt": last_order_height}}` filter of `fetch_events`. -/
def fetchFilter (watermark : Nat) (evs : List RawEvent) : List RawEvent :=
  evs.filter (fun e => watermark < e.height)

/-! ## Spec-side predicates and test fixtures -/

/-- The relation between the stored remaining amount and the fill
accumulators that `process_match_order_event` actually maintains: remaining
is `original − filled`, except that it is forced to exactly 0 once
`original − filled` has fallen inside the 0.001 tolerance window. -/
def remainingInvariant (o : Order) : Prop :=
  o.amount = o.originalAmount - o.filledAmount ∨
    (o.amount = 0 ∧ o.originalAmount - o.filledAmount ≤ 1/1000)

/-- The PLACE acceptance condition in the words of the spec claim: a list of
at least 8 entries with convertible numeric fields, amount > 0, price > 0,
pair non-empty, dollarValue > 0, and non-empty account and orderId. -/
def claimPlaceWellFormed (params : List Value) : Bool :=
  match safe_decimal_to_float (params.getD 2 default),
        safe_decimal_to_float (params.getD 3 default),
        safe_decimal_to_float (params.getD 7 default) with
  | some amount, some price, some dollarValue =>
    decide (8 ≤ params.length) && !pyStrEmpty (params.getD 0 default) &&
      !pyStrEmpty (params.getD 1 default) && decide (0 < amount) &&
      decide (0 < price) && !pyStrEmpty (params.getD 6 default) &&
      decide (0 < dollarValue)
  | _, _, _ => false

/-- The MATCH acceptance condition in the literal words of the spec claim: at
least 10 entries with amount > 0, price > 0, dollarValue > 0 and fee ≥ 0
(no non-emptiness requirements are stated). -/
def claimMatchWellFormed (params : List Value) : Bool :=
  match safe_decimal_to_float (params.getD 3 default),
        safe_decimal_to_float (params.getD 4 default),
        safe_decimal_to_float (params.getD 8 default),
        safe_decimal_to_float (params.getD 9 default) with
  | some amount, some price, some dollarValue, some fee =>
    decide (10 ≤ params.length) && decide (0 < amount) && decide (0 < price) &&
      decide (0 < dollarValue) && decide (0 ≤ fee)
  | _, _, _, _ => false

/-- The CANCEL acceptance condition in the literal words of the spec claim:
at least 4 entries with tokenReturned non-empty and amountReturned ≥ 0. -/
def claimCancelWellFormed (params : List Value) : Bool :=
  match safe_decimal_to_float (params.getD 3 default) with
  | some amountReturned =>
    decide (4 ≤ params.length) && !pyStrEmpty (params.getD 2 default) &&
      decide (0 ≤ amountReturned)
  | none => false

/-- The MATCH acceptance condition amended to what the code checks: the
claim's conditions plus non-empty maker, taker, orderId and pair. -/
def amendedMatchWellFormed (params : List Value) : Bool :=
  match safe_decimal_to_float (params.getD 3 default),
        safe_decimal_to_float (params.getD 4 default),
        safe_decimal_to_float (params.getD 8 default),
        safe_decimal_to_float (params.getD 9 default) with
  | some amount, some price, some dollarValue, some fee =>
    decide (10 ≤ params.length) && !pyStrEmpty (params.getD 0 default) &&
      !pyStrEmpty (params.getD 1 default) && !pyStrEmpty (params.getD 2 default) &&
      decide (0 < amount) && decide (0 < price) &&
      !pyStrEmpty (params.getD 7 default) && decide (0 < dollarValue) &&
      decide (0 ≤ fee)
  | _, _, _, _ => false

/-- The CANCEL acceptance condition amended to what the code checks: the
claim's conditions plus non-empty account and orderId. -/
def amendedCancelWellFormed (params : List Value) : Bool :=
  match safe_decimal_to_float (params.getD 3 default) with
  | some amountReturned =>
    decide (4 ≤ params.length) && !pyStrEmpty (params.getD 0 default) &&
      !pyStrEmpty (params.getD 1 default) && !pyStrEmpty (params.getD 2 default) &&
      decide (0 ≤ amountReturned)
  | none => false

/-- A well-formed MATCH parameter list whose maker account is empty: every
numeric condition of the claim holds, yet the code rejects it. -/
def cexMatchParams : List Value :=
  [.str "", .str "taker1", .str "ord1", .num 1, .num 2, .boolV true,
   .timeObj "t0", .str "A-B", .num 2, .num 0]

/-- A concrete PLACE event used by witnesses and counterexamples. -/
def samplePlace : PlaceEvent :=
  { account := "alice", orderId := "o1", amount := 1, price := 2,
    isAsk := false, orderTime := "t0", pair := "cKDA-KDA", dollarValue := 2 }

/-- The order created by `samplePlace` at height 10. -/
def sampleOrder : Order := placeOrderData samplePlace 10 none none

/-- A MATCH that fills `sampleOrder` down to a remaining amount of 0.0005,
inside the 0.001 tolerance window. -/
def sampleNearFillMatch : MatchEvent :=
  { maker := "bob", taker := "alice", orderId := "o1", amount := 1999/2000,
    price := 2, isAsk := false, orderTime := "t1", pair := "cKDA-KDA",
    dollarValue := 2, fee := 1/10 }

/-- A MATCH that fully fills `sampleOrder` in one step. -/
def sampleFullMatch : MatchEvent :=
  { maker := "bob", taker := "alice", orderId := "o1", amount := 1,
    price := 2, isAsk := false, orderTime := "t1", pair := "cKDA-KDA",
    dollarValue := 2, fee := 1/10 }

/-- A second MATCH for the same order, arriving after it is already filled. -/
def sampleLateMatch : MatchEvent :=
  { maker := "carol", taker := "alice", orderId := "o1", amount := 1,
    price := 3, isAsk := false, orderTime := "t2", pair := "cKDA-KDA",
    dollarValue := 3, fee := 1/10 }

/-- A CANCEL for `sampleOrder` from its own account. -/
def sampleCancel : CancelEvent :=
  { account := "alice", orderId := "o1", tokenReturned := "KDA",
    amountReturned := 1 }

/-- The raw parameter list that parses to `samplePlace`. -/
def samplePlaceParams : List Value :=
  [.str "alice", .str "o1", .num 1, .num 2, .boolV false, .timeObj "t0",
   .str "cKDA/KDA", .num 2]

/-- The raw parameter list that parses to `sampleCancel`. -/
def sampleCancelParams : List Value :=
  [.str "alice", .str "o1", .str "KDA", .num 1]

/-- A concrete raw PLACE event at height 3. -/
def sampleRawEvent : RawEvent :=
  { kind := .PLACE, height := 3, params := samplePlaceParams,
    blockTime := none, txId := none }

/-- A failure model in which every watermark write fails and nothing else
does. -/
def watermarkAlwaysFails : FailureModel :=
  { batchFails := fun _ => false, watermarkWriteFails := fun _ => true }

/-! ## Helper lemmas on the stable sort -/

/-- Inserting `x` into `A ++ B` lands exactly between `A` (all keys strictly
below `key x`) and `B` (all keys at least `key x`). -/
theorem orderedInsert_between {α : Type} (key : α → Nat) (x : α) :
    ∀ (A B : List α), (∀ a ∈ A, ¬ key x ≤ key a) → (∀ b ∈ B, key x ≤ key b) →
      List.orderedInsert (fun a b => key a ≤ key b) x (A ++ B) = A ++ x :: B
  | [], [], _, _ => rfl
  | [], b :: bs, _, hB => by
    simp [List.orderedInsert, hB b (List.mem_cons_self b bs)]
  | a :: A2, B, hA, hB => by
    have hna : ¬ key x ≤ key a := hA a (List.mem_cons_self a A2)
    simp only [List.cons_append, List.orderedInsert, if_neg hna, List.append_eq]
    rw [orderedInsert_between key x A2 B (fun c hc => hA c (List.mem_cons_of_mem a hc)) hB]

/-- A stable sort by a key bounded by 2 is the concatenation of the key-0,
key-1 and key-2 elements, each in original order. -/
theorem insertionSort_key_decomposition {α : Type} (key : α → Nat)
    (hkey : ∀ x : α, key x ≤ 2) (l : List α) :
    List.insertionSort (fun a b => key a ≤ key b) l =
      l.filter (fun x => key x == 0) ++ l.filter (fun x => key x == 1) ++
        l.filter (fun x => key x == 2) := by
  induction l with
  | nil => rfl
  | cons x l ih =>
    have hx := hkey x
    have mem0 : ∀ a ∈ l.filter (fun x => key x == 0), key a = 0 := by
      intro a ha
      simpa using (List.mem_filter.mp ha).2
    have mem1 : ∀ a ∈ l.filter (fun x => key x == 1), key a = 1 := by
      intro a ha
      simpa using (List.mem_filter.mp ha).2
    have mem2 : ∀ a ∈ l.filter (fun x => key x == 2), key a = 2 := by
      intro a ha
      simpa using (List.mem_filter.mp ha).2
    have step : List.insertionSort (fun a b => key a ≤ key b) (x :: l) =
        List.orderedInsert (fun a b => key a ≤ key b) x
          (List.insertionSort (fun a b => key a ≤ key b) l) := rfl
    interval_cases hkx : key x
    · rw [step, ih]
      have := orderedInsert_between key x []
        (l.filter (fun x => key x == 0) ++ l.filter (fun x => key x == 1) ++
          l.filter (fun x => key x == 2)) (by simp) (by simp [hkx])
      simp only [List.nil_append] at this
      rw [this]
      simp [List.filter_cons, hkx]
    · rw [step, ih, List.append_assoc]
      rw [orderedInsert_between key x (l.filter (fun x => key x == 0))
        (l.filter (fun x => key x == 1) ++ l.filter (fun x => key x == 2))
        (by intro a ha; rw [mem0 a ha]; omega)
        (by intro b hb; rcases List.mem_append.mp hb with hb | hb
            · rw [mem1 b hb]; omega
            · rw [mem2 b hb]; omega)]
      simp [List.filter_cons, hkx]
    · rw [step, ih]
      rw [orderedInsert_between key x
        (l.filter (fun x => key x == 0) ++ l.filter (fun x => key x == 1))
        (l.filter (fun x => key x == 2))
        (by intro a ha; rcases List.mem_append.mp ha with ha | ha
            · rw [mem0 a ha]; omega
            · rw [mem1 a ha]; omega)
        (by intro b hb; rw [mem2 b hb]; omega)]
      simp [List.filter_cons, hkx]

/-- C4: for every batch, heights are visited in ascending numeric order, and
within one height the events are stably sorted in the fixed kind priority
PLACE(0) < MATCH(1) < CANCEL(2): the sorted list is exactly the PLACE events
in fetch order, then the MATCH events in fetch order, then the CANCEL events
in fetch order; in particular priorities are non-decreasing along the list,
so within one height every MATCH (for any order id) is applied after every
PLACE, regardless of the original fetch order. -/
theorem C4_scheduler_ordering :
    (∀ ebh : List (Nat × List RawEvent), List.Sorted (· ≤ ·) (sortedHeights ebh)) ∧
    (∀ l : List RawEvent,
      sortEventsForHeight l =
        l.filter (fun e => eventPriority e == 0) ++
          l.filter (fun e => eventPriority e == 1) ++
          l.filter (fun e => eventPriority e == 2)) ∧
    (∀ l : List RawEvent,
      List.Pairwise (fun a b => eventPriority a ≤ eventPriority b)
        (sortEventsForHeight l)) := by
  have hkey : ∀ e : RawEvent, eventPriority e ≤ 2 := by
    intro e
    cases h : e.kind <;> simp [eventPriority, h]
  refine ⟨fun ebh => ?_, fun l => ?_, fun l => ?_⟩
  · exact List.sorted_insertionSort _ _
  · exact insertionSort_key_decomposition eventPriority hkey l
  · haveI : IsTotal RawEvent (fun a b => eventPriority a ≤ eventPriority b) :=
      ⟨fun a b => Nat.le_total _ _⟩
    haveI : IsTrans RawEvent (fun a b => eventPriority a ≤ eventPriority b) :=
      ⟨fun _ _ _ hab hbc => Nat.le_trans hab hbc⟩
    exact List.sorted_insertionSort _ l

/-! ## Commit-ordering lemmas -/

/-- Every action in the trace of a height list belongs to one of its heights. -/
theorem heightOf_mem_of_mem_heightTrace :
    ∀ (hs : List Nat) (a : StoreAction), a ∈ heightTrace hs → a.heightOf ∈ hs
  | [], a, ha => by cases ha
  | h :: hs, a, ha => by
    simp only [heightTrace, List.mem_cons] at ha
    rcases ha with rfl | rfl | rfl | ha
    · exact List.mem_cons_self _ _
    · exact List.mem_cons_self _ _
    · exact List.mem_cons_self _ _
    · exact List.mem_cons_of_mem _ (heightOf_mem_of_mem_heightTrace hs a ha)

/-- Splitting the trace of a sorted duplicate-free height list around one of
its heights: the block for `h` is contiguous and in the order order-updates,
trade-inserts, watermark-write; everything before it has a strictly smaller
height and everything after it a strictly larger one. -/
theorem heightTrace_split (h : Nat) :
    ∀ hs : List Nat, List.Sorted (· ≤ ·) hs → hs.Nodup → h ∈ hs →
      ∃ pre post,
        heightTrace hs =
          pre ++ [StoreAction.applyOrderUpdates h, StoreAction.insertTrades h,
            StoreAction.writeWatermark h] ++ post ∧
          (∀ a ∈ pre, a.heightOf < h) ∧ (∀ a ∈ post, h < a.heightOf)
  | [], _, _, hmem => absurd hmem (List.not_mem_nil h)
  | h' :: hs, hsort, hnd, hmem => by
    rcases List.mem_cons.mp hmem with rfl | hmem2
    · refine ⟨[], heightTrace hs, rfl, by simp, ?_⟩
      intro a ha
      have hmem3 := heightOf_mem_of_mem_heightTrace hs a ha
      have hle : h ≤ a.heightOf := (List.sorted_cons.mp hsort).1 _ hmem3
      have hne : a.heightOf ≠ h := by
        intro hcontra
        exact (List.nodup_cons.mp hnd).1 (hcontra ▸ hmem3)
      omega
    · obtain ⟨pre, post, htr, hpre, hpost⟩ :=
        heightTrace_split h hs (List.sorted_cons.mp hsort).2
          (List.nodup_cons.mp hnd).2 hmem2
      refine ⟨StoreAction.applyOrderUpdates h' :: StoreAction.insertTrades h' ::
        StoreAction.writeWatermark h' :: pre, post, ?_, ?_, hpost⟩
      · simp [heightTrace, htr]
      · have hlt : h' < h := by
          have hle : h' ≤ h := (List.sorted_cons.mp hsort).1 _ hmem2
          have hne : h ≠ h' := by
            intro hcontra
            exact (List.nodup_cons.mp hnd).1 (hcontra ▸ hmem2)
          omega
        intro a ha
        rcases List.mem_cons.mp ha with rfl | ha
        · exact hlt
        rcases List.mem_cons.mp ha with rfl | ha
        · exact hlt
        rcases List.mem_cons.mp ha with rfl | ha
        · exact hlt
        · exact hpre a ha

/-- C5: for every height `h` of a batch (with distinct heights), the run's
store-call trace applies the height's order mutations, then its trade
inserts, and only then writes the watermark to `h`; every store call before
that block is for a strictly smaller height (so no event of a height above
`h` is applied before all of height `h` is committed and the watermark
advanced), and every call after it is for a strictly larger height. -/
theorem C5_commit_before_watermark (ebh : List (Nat × List RawEvent)) (h : Nat)
    (hnd : (sortedHeights ebh).Nodup) (hmem : h ∈ sortedHeights ebh) :
    ∃ pre post,
      runTrace ebh =
        pre ++ [StoreAction.applyOrderUpdates h, StoreAction.insertTrades h,
          StoreAction.writeWatermark h] ++ post ∧
        (∀ a ∈ pre, a.heightOf < h) ∧ (∀ a ∈ post, h < a.heightOf) :=
  heightTrace_split h (sortedHeights ebh)
    (List.sorted_insertionSort _ _) hnd hmem

/-- Witness for the commit-ordering theorem at a concrete two-height batch. -/
theorem C5_commit_before_watermark_witness :
    (sortedHeights [(7, ([] : List RawEvent)), (3, [])]).Nodup ∧
      3 ∈ sortedHeights [(7, ([] : List RawEvent)), (3, [])] ∧
      ∃ pre post,
        runTrace [(7, ([] : List RawEvent)), (3, [])] =
          pre ++ [StoreAction.applyOrderUpdates 3, StoreAction.insertTrades 3,
            StoreAction.writeWatermark 3] ++ post ∧
          (∀ a ∈ pre, a.heightOf < 3) ∧ (∀ a ∈ post, 3 < a.heightOf) :=
  ⟨by decide, by decide,
    C5_commit_before_watermark [(7, []), (3, [])] 3 (by decide) (by decide)⟩

/-! ## MATCH arithmetic (claim C1) and the remaining-amount invariant (C2) -/

/-- C1: a MATCH applied to an existing order computes the new state exactly
as claimed: filled, fill value, dollar and fee totals accumulate; the average
fill price is fill value over filled (0 when filled is 0); the fill
percentage is filled over original times 100 (0 when original is 0); and the
status becomes `filled` with remaining forced to exactly 0 when
`original − newFilled ≤ 0.001`, else `partially_filled` when the new filled
amount is positive, else unchanged.  The nonnegativity hypotheses state that
the stored accumulators and the event amount are genuine quantities. -/
theorem C1_match_computation (o : Order) (e : MatchEvent) (h : Nat)
    (hf : 0 ≤ o.filledAmount) (ha : 0 ≤ e.amount) (ho : 0 ≤ o.originalAmount) :
    (matchUpdatedOrder o e h).filledAmount = o.filledAmount + e.amount ∧
    (matchUpdatedOrder o e h).totalFillValue =
      o.totalFillValue + e.amount * e.price ∧
    ((matchUpdatedOrder o e h).filledAmount = 0 →
      (matchUpdatedOrder o e h).averageFillPrice = 0) ∧
    ((matchUpdatedOrder o e h).filledAmount ≠ 0 →
      (matchUpdatedOrder o e h).averageFillPrice =
        (matchUpdatedOrder o e h).totalFillValue /
          (matchUpdatedOrder o e h).filledAmount) ∧
    (matchUpdatedOrder o e h).totalDollarValue =
      o.totalDollarValue + e.dollarValue ∧
    (matchUpdatedOrder o e h).totalFees = o.totalFees + e.fee ∧
    (o.originalAmount = 0 → (matchUpdatedOrder o e h).fillPercentage = 0) ∧
    (o.originalAmount ≠ 0 →
      (matchUpdatedOrder o e h).fillPercentage =
        (o.filledAmount + e.amount) / o.originalAmount * 100) ∧
    (o.originalAmount - (o.filledAmount + e.amount) ≤ 1/1000 →
      (matchUpdatedOrder o e h).status = "filled" ∧
        (matchUpdatedOrder o e h).amount = 0) ∧
    (1/1000 < o.originalAmount - (o.filledAmount + e.amount) →
      0 < o.filledAmount + e.amount →
      (matchUpdatedOrder o e h).status = "partially_filled") ∧
    (1/1000 < o.originalAmount - (o.filledAmount + e.amount) →
      o.filledAmount + e.amount = 0 →
      (matchUpdatedOrder o e h).status = o.status) := by
  have havg : (matchUpdatedOrder o e h).averageFillPrice =
      (if o.filledAmount + e.amount > 0 then
        (o.totalFillValue + e.amount * e.price) / (o.filledAmount + e.amount)
      else 0) := rfl
  have hfp : (matchUpdatedOrder o e h).fillPercentage =
      (if o.originalAmount > 0 then
        (o.filledAmount + e.amount) / o.originalAmount * 100
      else 0) := rfl
  have hstat : (matchUpdatedOrder o e h).status =
      (if o.originalAmount - (o.filledAmount + e.amount) ≤ 1/1000 then "filled"
      else if o.filledAmount + e.amount > 0 then "partially_filled"
      else o.status) := rfl
  have hamt : (matchUpdatedOrder o e h).amount =
      (if o.originalAmount - (o.filledAmount + e.amount) ≤ 1/1000 then (0 : ℚ)
      else o.originalAmount - (o.filledAmount + e.amount)) := rfl
  refine ⟨rfl, rfl, ?_, ?_, rfl, rfl, ?_, ?_, ?_, ?_, ?_⟩
  · intro hz
    have hz' : o.filledAmount + e.amount = 0 := hz
    rw [havg, if_neg (by rw [hz']; exact lt_irrefl 0)]
  · intro hnz
    have hnz' : o.filledAmount + e.amount ≠ 0 := hnz
    have hpos : o.filledAmount + e.amount > 0 :=
      lt_of_le_of_ne (by linarith) (Ne.symm hnz')
    rw [havg, if_pos hpos]
    rfl
  · intro h0
    rw [hfp, if_neg (by rw [h0]; exact lt_irrefl 0)]
  · intro hnz
    have hpos : o.originalAmount > 0 := lt_of_le_of_ne ho (Ne.symm hnz)
    rw [hfp, if_pos hpos]
  · intro hc
    exact ⟨by rw [hstat, if_pos hc], by rw [hamt, if_pos hc]⟩
  · intro hc hpos
    rw [hstat, if_neg (not_le.mpr hc), if_pos hpos]
  · intro hc hz
    rw [hstat, if_neg (not_le.mpr hc), if_neg (by rw [hz]; exact lt_irrefl 0)]

/-- Witness for `C1_match_computation` at `sampleOrder` and
`sampleNearFillMatch`. -/
theorem C1_match_computation_witness :
    (0 : ℚ) ≤ sampleOrder.filledAmount ∧ (0 : ℚ) ≤ sampleNearFillMatch.amount ∧
      (0 : ℚ) ≤ sampleOrder.originalAmount ∧
      (matchUpdatedOrder sampleOrder sampleNearFillMatch 11).filledAmount =
        sampleOrder.filledAmount + sampleNearFillMatch.amount :=
  ⟨by norm_num [sampleOrder, placeOrderData, samplePlace],
   by norm_num [sampleNearFillMatch],
   by norm_num [sampleOrder, placeOrderData, samplePlace],
   (C1_match_computation sampleOrder sampleNearFillMatch 11
      (by norm_num [sampleOrder, placeOrderData, samplePlace])
      (by norm_num [sampleNearFillMatch])
      (by norm_num [sampleOrder, placeOrderData, samplePlace])).1⟩

/-- One MATCH step always restores the remaining-amount relation, and leaves
the stored remaining amount nonnegative, whatever the previous state was. -/
theorem matchUpdatedOrder_remainingInvariant (o : Order) (e : MatchEvent)
    (h : Nat) :
    remainingInvariant (matchUpdatedOrder o e h) ∧
      0 ≤ (matchUpdatedOrder o e h).amount := by
  have hamt : (matchUpdatedOrder o e h).amount =
      (if o.originalAmount - (o.filledAmount + e.amount) ≤ 1/1000 then (0 : ℚ)
      else o.originalAmount - (o.filledAmount + e.amount)) := rfl
  have hfa : (matchUpdatedOrder o e h).filledAmount =
      o.filledAmount + e.amount := rfl
  have hoa : (matchUpdatedOrder o e h).originalAmount = o.originalAmount := rfl
  by_cases hc : o.originalAmount - (o.filledAmount + e.amount) ≤ 1/1000
  · refine ⟨Or.inr ⟨?_, ?_⟩, ?_⟩
    · rw [hamt, if_pos hc]
    · rw [hoa, hfa]; exact hc
    · rw [hamt, if_pos hc]
  · refine ⟨Or.inl ?_, ?_⟩
    · rw [hamt, if_neg hc, hoa, hfa]
    · rw [hamt, if_neg hc]
      have := not_le.mp hc
      linarith

/-- The remaining-amount relation and nonnegativity survive any sequence of
MATCH applications. -/
theorem applyMatchesToOrder_remainingInvariant (ms : List (MatchEvent × Nat)) :
    ∀ o : Order, remainingInvariant o → 0 ≤ o.amount →
      remainingInvariant (applyMatchesToOrder o ms) ∧
        0 ≤ (applyMatchesToOrder o ms).amount := by
  induction ms with
  | nil => intro o h0 h1; exact ⟨h0, h1⟩
  | cons p ms ih =>
    intro o _ _
    have step := matchUpdatedOrder_remainingInvariant o p.1 p.2
    exact ih (matchUpdatedOrder o p.1 p.2) step.1 step.2

/-- C2 counterexample: a MATCH that leaves `original − filled = 0.0005`
(inside the 0.001 tolerance) stores remaining = 0, which differs from
`max(0, originalAmount − filledAmount) = 0.0005`; the clamped sum
`remaining + filled = original` fails as well. -/
theorem C2_remaining_counterexample :
    (applyMatchesToOrder sampleOrder [(sampleNearFillMatch, 11)]).amount = 0 ∧
    (applyMatchesToOrder sampleOrder [(sampleNearFillMatch, 11)]).originalAmount -
      (applyMatchesToOrder sampleOrder [(sampleNearFillMatch, 11)]).filledAmount =
        1/2000 ∧
    (applyMatchesToOrder sampleOrder [(sampleNearFillMatch, 11)]).amount ≠
      max 0
        ((applyMatchesToOrder sampleOrder [(sampleNearFillMatch, 11)]).originalAmount -
          (applyMatchesToOrder sampleOrder [(sampleNearFillMatch, 11)]).filledAmount) ∧
    (applyMatchesToOrder sampleOrder [(sampleNearFillMatch, 11)]).amount +
        (applyMatchesToOrder sampleOrder [(sampleNearFillMatch, 11)]).filledAmount ≠
      (applyMatchesToOrder sampleOrder [(sampleNearFillMatch, 11)]).originalAmount := by
  have e1 : applyMatchesToOrder sampleOrder [(sampleNearFillMatch, 11)] =
      matchUpdatedOrder sampleOrder sampleNearFillMatch 11 := rfl
  have hc : sampleOrder.originalAmount -
      (sampleOrder.filledAmount + sampleNearFillMatch.amount) ≤ 1/1000 := by
    show (1 : ℚ) - (0 + 1999/2000) ≤ 1/1000
    norm_num
  have hamt : (matchUpdatedOrder sampleOrder sampleNearFillMatch 11).amount = 0 := by
    have hif : (matchUpdatedOrder sampleOrder sampleNearFillMatch 11).amount =
        (if sampleOrder.originalAmount -
            (sampleOrder.filledAmount + sampleNearFillMatch.amount) ≤ 1/1000 then (0 : ℚ)
        else sampleOrder.originalAmount -
          (sampleOrder.filledAmount + sampleNearFillMatch.amount)) := rfl
    rw [hif, if_pos hc]
  have hfa : (matchUpdatedOrder sampleOrder sampleNearFillMatch 11).filledAmount =
      sampleOrder.filledAmount + sampleNearFillMatch.amount := rfl
  have hoa : (matchUpdatedOrder sampleOrder sampleNearFillMatch 11).originalAmount =
      sampleOrder.originalAmount := rfl
  have hdiff : (matchUpdatedOrder sampleOrder sampleNearFillMatch 11).originalAmount -
      (matchUpdatedOrder sampleOrder sampleNearFillMatch 11).filledAmount = 1/2000 := by
    rw [hoa, hfa]
    show (1 : ℚ) - (0 + 1999/2000) = 1/2000
    norm_num
  refine ⟨by rw [e1, hamt], by rw [e1]; exact hdiff, ?_, ?_⟩
  · rw [e1, hamt, hdiff]
    rw [max_eq_right (by norm_num : (0 : ℚ) ≤ 1/2000)]
    norm_num
  · rw [e1, hamt, hfa, hoa]
    show (0 : ℚ) + (0 + 1999/2000) ≠ 1
    norm_num

/-- C2 amended: after a PLACE and any number of MATCH applications, the
stored remaining amount equals `originalAmount − filledAmount` except that it
is forced to exactly 0 once that difference lies within the 0.001 tolerance;
when the placed amount is nonnegative the stored remaining amount is also
nonnegative, and it is exactly 0 whenever `originalAmount − filledAmount ≤ 0`
(the clamp at zero). -/
theorem C2_remaining_amended (pe : PlaceEvent) (h : Nat)
    (bt tx : Option String) (ms : List (MatchEvent × Nat))
    (hpe : 0 ≤ pe.amount) :
    remainingInvariant (applyMatchesToOrder (placeOrderData pe h bt tx) ms) ∧
    0 ≤ (applyMatchesToOrder (placeOrderData pe h bt tx) ms).amount ∧
    ((applyMatchesToOrder (placeOrderData pe h bt tx) ms).originalAmount -
        (applyMatchesToOrder (placeOrderData pe h bt tx) ms).filledAmount ≤ 0 →
      (applyMatchesToOrder (placeOrderData pe h bt tx) ms).amount = 0) := by
  have hbase : remainingInvariant (placeOrderData pe h bt tx) := by
    simp [remainingInvariant, placeOrderData]
  have hbase2 : 0 ≤ (placeOrderData pe h bt tx).amount := hpe
  obtain ⟨hinv, hnn⟩ :=
    applyMatchesToOrder_remainingInvariant ms (placeOrderData pe h bt tx)
      hbase hbase2
  refine ⟨hinv, hnn, fun hle => ?_⟩
  rcases hinv with heq | ⟨hz, _⟩
  · have : (applyMatchesToOrder (placeOrderData pe h bt tx) ms).amount ≤ 0 := by
      rw [heq]; exact hle
    linarith
  · exact hz

/-- Witness for `C2_remaining_amended` at `samplePlace` with two MATCH
steps. -/
theorem C2_remaining_amended_witness :
    (0 : ℚ) ≤ samplePlace.amount ∧
      remainingInvariant
        (applyMatchesToOrder (placeOrderData samplePlace 10 none none)
          [(sampleNearFillMatch, 11), (sampleLateMatch, 12)]) :=
  ⟨by norm_num [samplePlace],
    (C2_remaining_amended samplePlace 10 none none
      [(sampleNearFillMatch, 11), (sampleLateMatch, 12)]
      (by norm_num [samplePlace])).1⟩

/-! ## PLACE upsert behaviour (claims C3 and C6) -/

/-- A PLACE whose `orderId` already exists in the store leaves the store
completely unchanged (`$setOnInsert` on a matched filter writes nothing). -/
theorem applyPlace_existing_noop (s : OrderStore) (params : List Value)
    (h : Nat) (bt tx : Option String) (e : PlaceEvent)
    (hp : parsePlaceParams params = some e)
    (hs : (findOrder s e.orderId).isSome = true) :
    applyPlace s params h bt tx = s := by
  unfold applyPlace processPlaceOrderEvent
  rw [hp]
  show executeOrderUpdate s
    (.upsertOnInsert e.orderId (placeOrderData e h bt tx)) = s
  simp only [executeOrderUpdate]
  rw [if_pos hs]

/-- The freshly inserted order document is found under its own id. -/
theorem findOrder_append_isSome (s : OrderStore) (d : Order) :
    (findOrder (s ++ [d]) d.orderId).isSome = true := by
  induction s with
  | nil => simp [findOrder]
  | cons a s ih =>
    rw [List.cons_append]
    by_cases hA : (a.orderId == d.orderId) = true
    · simp [findOrder, List.find?_cons, hA]
    · have hA' : (a.orderId == d.orderId) = false := by
        cases hb : (a.orderId == d.orderId)
        · rfl
        · exact absurd hb hA
      rw [show findOrder (a :: (s ++ [d])) d.orderId =
          findOrder (s ++ [d]) d.orderId from by
        simp [findOrder, List.find?_cons, hA']]
      exact ih

/-- Applying one PLACE twice yields the same store as applying it once. -/
theorem applyPlace_twice (s : OrderStore) (params : List Value) (h : Nat)
    (bt tx : Option String) :
    applyPlace (applyPlace s params h bt tx) params h bt tx =
      applyPlace s params h bt tx := by
  cases hp : parsePlaceParams params with
  | none =>
    unfold applyPlace processPlaceOrderEvent
    rw [hp]
    rfl
  | some e =>
    have step : ∀ t : OrderStore, applyPlace t params h bt tx =
        executeOrderUpdate t
          (.upsertOnInsert e.orderId (placeOrderData e h bt tx)) := by
      intro t
      unfold applyPlace processPlaceOrderEvent
      rw [hp]
      rfl
    simp only [step]
    by_cases hs : (findOrder s e.orderId).isSome = true
    · have h1 : executeOrderUpdate s
          (.upsertOnInsert e.orderId (placeOrderData e h bt tx)) = s := by
        simp only [executeOrderUpdate]
        rw [if_pos hs]
      rw [h1]
      exact h1
    · have hs' : (findOrder s e.orderId).isSome = false := by
        cases hb : (findOrder s e.orderId).isSome
        · rfl
        · exact absurd hb hs
      have h2 : executeOrderUpdate s
          (.upsertOnInsert e.orderId (placeOrderData e h bt tx)) =
          s ++ [placeOrderData e h bt tx] := by
        simp only [executeOrderUpdate]
        rw [if_neg (by rw [hs']; exact Bool.false_ne_true)]
      rw [h2]
      have hins : (findOrder (s ++ [placeOrderData e h bt tx])
          (placeOrderData e h bt tx).orderId).isSome = true :=
        findOrder_append_isSome s (placeOrderData e h bt tx)
      have hid : (placeOrderData e h bt tx).orderId = e.orderId := rfl
      rw [hid] at hins
      simp only [executeOrderUpdate]
      rw [if_pos hins]

/-- C3 counterexample: an order in the terminal status `filled` is not left
unchanged by a later MATCH — its `filledAmount` moves — and a CANCEL moves
its status from the terminal `filled` to `cancelled`, a transition outside
the claimed forward-only lattice. -/
theorem C3_terminal_counterexample :
    (matchUpdatedOrder sampleOrder sampleFullMatch 11).status = "filled" ∧
    (matchUpdatedOrder (matchUpdatedOrder sampleOrder sampleFullMatch 11)
        sampleLateMatch 12).filledAmount ≠
      (matchUpdatedOrder sampleOrder sampleFullMatch 11).filledAmount ∧
    (cancelUpdatedOrder (matchUpdatedOrder sampleOrder sampleFullMatch 11)
        sampleCancel 13 none).status = "cancelled" := by
  have hstat : (matchUpdatedOrder sampleOrder sampleFullMatch 11).status =
      (if sampleOrder.originalAmount -
          (sampleOrder.filledAmount + sampleFullMatch.amount) ≤ 1/1000 then "filled"
      else if sampleOrder.filledAmount + sampleFullMatch.amount > 0 then "partially_filled"
      else sampleOrder.status) := rfl
  have hc : sampleOrder.originalAmount -
      (sampleOrder.filledAmount + sampleFullMatch.amount) ≤ 1/1000 := by
    show (1 : ℚ) - (0 + 1) ≤ 1/1000
    norm_num
  refine ⟨by rw [hstat, if_pos hc], ?_, rfl⟩
  have h1 : (matchUpdatedOrder (matchUpdatedOrder sampleOrder sampleFullMatch 11)
      sampleLateMatch 12).filledAmount =
      (matchUpdatedOrder sampleOrder sampleFullMatch 11).filledAmount +
        sampleLateMatch.amount := rfl
  have h2 : (matchUpdatedOrder sampleOrder sampleFullMatch 11).filledAmount =
      sampleOrder.filledAmount + sampleFullMatch.amount := rfl
  rw [h1, h2]
  show (0 : ℚ) + 1 + 1 ≠ 0 + 1
  norm_num

/-- C3 amended: there is no terminal-status guard.  A PLACE whose order
already exists (terminal or not) leaves the store unchanged, but MATCH and
CANCEL are applied no matter what the order's status is: a MATCH always adds
the matched amount to `filledAmount`, and a CANCEL with the matching account
always sets the status to `cancelled` — so `filled` and `cancelled` orders
can still be mutated, and `filled` can move to `cancelled`. -/
theorem C3_no_terminal_guard :
    (∀ (s : OrderStore) (params : List Value) (h : Nat)
        (bt tx : Option String) (e : PlaceEvent),
      parsePlaceParams params = some e →
      (findOrder s e.orderId).isSome = true →
      applyPlace s params h bt tx = s) ∧
    (∀ (o : Order) (e : MatchEvent) (h : Nat),
      (matchUpdatedOrder o e h).filledAmount = o.filledAmount + e.amount) ∧
    (∀ (o : Order) (e : CancelEvent) (h : Nat) (bt : Option String),
      (cancelUpdatedOrder o e h bt).status = "cancelled") :=
  ⟨fun s params h bt tx e hp hs => applyPlace_existing_noop s params h bt tx e hp hs,
   fun _ _ _ => rfl, fun _ _ _ _ => rfl⟩

/-- Witness for `C3_no_terminal_guard`: a PLACE replayed against a store
holding the already-filled order is a no-op. -/
theorem C3_no_terminal_guard_witness :
    parsePlaceParams samplePlaceParams = some samplePlace ∧
    (findOrder [matchUpdatedOrder sampleOrder sampleFullMatch 11]
      samplePlace.orderId).isSome = true ∧
    applyPlace [matchUpdatedOrder sampleOrder sampleFullMatch 11]
      samplePlaceParams 15 none none =
      [matchUpdatedOrder sampleOrder sampleFullMatch 11] :=
  ⟨rfl, rfl,
    C3_no_terminal_guard.1 [matchUpdatedOrder sampleOrder sampleFullMatch 11]
      samplePlaceParams 15 none none samplePlace rfl rfl⟩

/-- C6: a PLACE is insert-if-absent: replaying the same PLACE twice yields a
store identical to applying it once, and a PLACE for an `orderId` already in
the store is a no-op that overwrites nothing. -/
theorem C6_place_insert_if_absent :
    (∀ (s : OrderStore) (params : List Value) (h : Nat)
        (bt tx : Option String) (e : PlaceEvent),
      parsePlaceParams params = some e →
      (findOrder s e.orderId).isSome = true →
      applyPlace s params h bt tx = s) ∧
    (∀ (s : OrderStore) (params : List Value) (h : Nat) (bt tx : Option String),
      applyPlace (applyPlace s params h bt tx) params h bt tx =
        applyPlace s params h bt tx) :=
  ⟨fun s params h bt tx e hp hs => applyPlace_existing_noop s params h bt tx e hp hs,
   fun s params h bt tx => applyPlace_twice s params h bt tx⟩

/-- Witness for `C6_place_insert_if_absent`: both parts at concrete inputs —
a replay onto a store already holding `sampleOrder`, and a double insert
into the empty store. -/
theorem C6_place_insert_if_absent_witness :
    (parsePlaceParams samplePlaceParams = some samplePlace ∧
      (findOrder [sampleOrder] samplePlace.orderId).isSome = true ∧
      applyPlace [sampleOrder] samplePlaceParams 12 none none = [sampleOrder]) ∧
    applyPlace (applyPlace [] samplePlaceParams 10 none none)
        samplePlaceParams 10 none none =
      applyPlace [] samplePlaceParams 10 none none :=
  ⟨⟨rfl, rfl,
    C6_place_insert_if_absent.1 [sampleOrder] samplePlaceParams 12 none none
      samplePlace rfl rfl⟩,
   C6_place_insert_if_absent.2 [] samplePlaceParams 10 none none⟩

/-! ## CANCEL semantics (claim C7) -/

/-- Reduction of the CANCEL handler once its parameters have parsed. -/
theorem processCancelOrderEvent_eq (s : OrderStore) (params : List Value)
    (h : Nat) (bt : Option String) (e : CancelEvent)
    (hp : parseCancelParams params = some e) :
    processCancelOrderEvent s params h bt =
      (match findOrder s e.orderId with
       | none => none
       | some o =>
         if o.account ≠ e.account then none
         else some (QueuedUpdate.setFieldsByAccount e.orderId e.account
           (cancelPatch e h bt))) := by
  unfold processCancelOrderEvent
  rw [hp]

/-- C7: a CANCEL for a missing order is dropped without mutation; a CANCEL
whose account differs from the order's account is dropped without mutation;
otherwise the store's matching document receives exactly the cancellation
fields (`status`, `cancelledAt`, `cancelReason`, `tokenReturned`,
`amountReturned`, `lastUpdated`) while every other field — in particular the
fill accumulators — is preserved. -/
theorem C7_cancel_semantics (s : OrderStore) (params : List Value) (h : Nat)
    (bt : Option String) (e : CancelEvent)
    (hp : parseCancelParams params = some e) :
    (findOrder s e.orderId = none → applyCancel s params h bt = s) ∧
    (∀ o, findOrder s e.orderId = some o → o.account ≠ e.account →
      applyCancel s params h bt = s) ∧
    (∀ o, findOrder s e.orderId = some o → o.account = e.account →
      applyCancel s params h bt =
        s.map (fun x =>
          if x.orderId == e.orderId && x.account == e.account
          then cancelPatch e h bt x else x)) ∧
    (∀ x : Order,
      (cancelPatch e h bt x).status = "cancelled" ∧
      (cancelPatch e h bt x).cancelledAt = some (bt.getD "utcnow") ∧
      (cancelPatch e h bt x).cancelReason = some "user_cancelled" ∧
      (cancelPatch e h bt x).tokenReturned = some e.tokenReturned ∧
      (cancelPatch e h bt x).amountReturned = some e.amountReturned ∧
      (cancelPatch e h bt x).lastUpdated = h ∧
      (cancelPatch e h bt x).filledAmount = x.filledAmount ∧
      (cancelPatch e h bt x).amount = x.amount ∧
      (cancelPatch e h bt x).totalFillValue = x.totalFillValue ∧
      (cancelPatch e h bt x).totalFees = x.totalFees ∧
      (cancelPatch e h bt x).numberOfFills = x.numberOfFills ∧
      (cancelPatch e h bt x).orderId = x.orderId ∧
      (cancelPatch e h bt x).account = x.account ∧
      (cancelPatch e h bt x).pair = x.pair ∧
      (cancelPatch e h bt x).originalAmount = x.originalAmount ∧
      (cancelPatch e h bt x).price = x.price ∧
      (cancelPatch e h bt x).isAsk = x.isAsk ∧
      (cancelPatch e h bt x).orderType = x.orderType ∧
      (cancelPatch e h bt x).orderTime = x.orderTime ∧
      (cancelPatch e h bt x).height = x.height ∧
      (cancelPatch e h bt x).blockTime = x.blockTime ∧
      (cancelPatch e h bt x).txId = x.txId ∧
      (cancelPatch e h bt x).fillPercentage = x.fillPercentage ∧
      (cancelPatch e h bt x).averageFillPrice = x.averageFillPrice ∧
      (cancelPatch e h bt x).totalDollarValue = x.totalDollarValue ∧
      (cancelPatch e h bt x).lastFillTime = x.lastFillTime ∧
      (cancelPatch e h bt x).lastFillHeight = x.lastFillHeight ∧
      (cancelPatch e h bt x).createdAt = x.createdAt) := by
  refine ⟨?_, ?_, ?_, ?_⟩
  · intro hnone
    unfold applyCancel
    rw [processCancelOrderEvent_eq s params h bt e hp, hnone]
  · intro o ho hne
    unfold applyCancel
    rw [processCancelOrderEvent_eq s params h bt e hp, ho]
    show (match (if o.account ≠ e.account then none
        else some (QueuedUpdate.setFieldsByAccount e.orderId e.account
          (cancelPatch e h bt)) : Option QueuedUpdate) with
      | none => s
      | some qu => executeOrderUpdate s qu) = s
    rw [if_pos hne]
  · intro o ho heq
    unfold applyCancel
    rw [processCancelOrderEvent_eq s params h bt e hp, ho]
    show (match (if o.account ≠ e.account then none
        else some (QueuedUpdate.setFieldsByAccount e.orderId e.account
          (cancelPatch e h bt)) : Option QueuedUpdate) with
      | none => s
      | some qu => executeOrderUpdate s qu) =
      s.map (fun x =>
        if x.orderId == e.orderId && x.account == e.account
        then cancelPatch e h bt x else x)
    rw [if_neg (not_ne_iff.mpr heq)]
    rfl
  · intro x
    exact ⟨rfl, rfl, rfl, rfl, rfl, rfl, rfl, rfl, rfl, rfl, rfl, rfl, rfl,
      rfl, rfl, rfl, rfl, rfl, rfl, rfl, rfl, rfl, rfl, rfl, rfl, rfl, rfl, rfl⟩

/-- Witness for `C7_cancel_semantics`: a valid same-account CANCEL against
the store holding `sampleOrder`. -/
theorem C7_cancel_semantics_witness :
    parseCancelParams sampleCancelParams = some sampleCancel ∧
    findOrder [sampleOrder] sampleCancel.orderId = some sampleOrder ∧
    sampleOrder.account = sampleCancel.account ∧
    applyCancel [sampleOrder] sampleCancelParams 13 none =
      [sampleOrder].map (fun x =>
        if x.orderId == sampleCancel.orderId && x.account == sampleCancel.account
        then cancelPatch sampleCancel 13 none x else x) :=
  ⟨rfl, rfl, rfl,
    (C7_cancel_semantics [sampleOrder] sampleCancelParams 13 none sampleCancel
      rfl).2.2.1 sampleOrder rfl rfl⟩

/-! ## Validator characterisations (claim C8) -/

/-- `amount > 0` decides oppositely to the code's `amount <= 0` test. -/
theorem decide_zero_lt (a : ℚ) : decide (0 < a) = !decide (a ≤ 0) := by
  by_cases h : a ≤ 0
  · simp [h, not_lt.mpr h]
  · simp [h, not_le.mp h]

/-- `fee >= 0` decides oppositely to the code's `fee < 0` test. -/
theorem decide_zero_le (a : ℚ) : decide (0 ≤ a) = !decide (a < 0) := by
  by_cases h : a < 0
  · simp [h, not_le.mpr h]
  · simp [h, not_lt.mp h]

set_option maxHeartbeats 1000000 in
/-- The PLACE validator accepts exactly `claimPlaceWellFormed`, and every
rejection carries a non-empty reason. -/
theorem validate_place_iff (params : List Value) :
    (validate_place_order_params params).1 = claimPlaceWellFormed params ∧
    ((validate_place_order_params params).1 = false →
      (validate_place_order_params params).2 ≠ "") := by
  unfold validate_place_order_params claimPlaceWellFormed
  by_cases hlen : params.length < 8
  · rw [if_pos hlen]
    cases h2 : safe_decimal_to_float (params.getD 2 default) <;>
      cases h3 : safe_decimal_to_float (params.getD 3 default) <;>
        cases h7 : safe_decimal_to_float (params.getD 7 default) <;>
          exact ⟨by simp [decide_eq_false (by omega : ¬ 8 ≤ params.length)],
            by intro; decide⟩
  · rw [if_neg hlen]
    have hlen8 : 8 ≤ params.length := not_lt.mp hlen
    cases h2 : safe_decimal_to_float (params.getD 2 default) <;>
      cases h3 : safe_decimal_to_float (params.getD 3 default) <;>
        cases h7 : safe_decimal_to_float (params.getD 7 default)
    case neg.some.some.some a p d =>
      by_cases e0 : pyStrEmpty (params.getD 0 default) = true <;>
        by_cases e1 : pyStrEmpty (params.getD 1 default) = true <;>
          by_cases e6 : pyStrEmpty (params.getD 6 default) = true <;>
            by_cases ea : a ≤ 0 <;>
              by_cases ep : p ≤ 0 <;>
                by_cases ed : d ≤ 0 <;>
                  refine ⟨?_, ?_⟩ <;>
                    simp [-List.getD_eq_getElem?_getD, e0, e1, e6, ea, ep,
                      ed, hlen8, decide_zero_lt, decide_eq_true,
                      decide_eq_false]
    all_goals exact ⟨rfl, by intro; simp⟩

set_option maxHeartbeats 2000000 in
/-- The MATCH validator accepts exactly `amendedMatchWellFormed`, and every
rejection carries a non-empty reason. -/
theorem validate_match_iff (params : List Value) :
    (validate_match_order_params params).1 = amendedMatchWellFormed params ∧
    ((validate_match_order_params params).1 = false →
      (validate_match_order_params params).2 ≠ "") := by
  unfold validate_match_order_params amendedMatchWellFormed
  by_cases hlen : params.length < 10
  · rw [if_pos hlen]
    cases h3 : safe_decimal_to_float (params.getD 3 default) <;>
      cases h4 : safe_decimal_to_float (params.getD 4 default) <;>
        cases h8 : safe_decimal_to_float (params.getD 8 default) <;>
          cases h9 : safe_decimal_to_float (params.getD 9 default) <;>
            exact ⟨by simp [decide_eq_false (by omega : ¬ 10 ≤ params.length)],
              by intro; decide⟩
  · rw [if_neg hlen]
    have hlen10 : 10 ≤ params.length := not_lt.mp hlen
    cases h3 : safe_decimal_to_float (params.getD 3 default) <;>
      cases h4 : safe_decimal_to_float (params.getD 4 default) <;>
        cases h8 : safe_decimal_to_float (params.getD 8 default) <;>
          cases h9 : safe_decimal_to_float (params.getD 9 default)
    case neg.some.some.some.some a p d f =>
      by_cases e0 : pyStrEmpty (params.getD 0 default) = true <;>
        by_cases e1 : pyStrEmpty (params.getD 1 default) = true <;>
          by_cases e2 : pyStrEmpty (params.getD 2 default) = true <;>
            by_cases e7 : pyStrEmpty (params.getD 7 default) = true <;>
              by_cases ea : a ≤ 0 <;>
                by_cases ep : p ≤ 0 <;>
                  by_cases ed : d ≤ 0 <;>
                    by_cases ef : f < 0 <;>
                      refine ⟨?_, ?_⟩ <;>
                        simp [-List.getD_eq_getElem?_getD, e0, e1, e2, e7,
                          ea, ep, ed, ef, hlen10, decide_zero_lt,
                          decide_zero_le, decide_eq_true, decide_eq_false]
    all_goals exact ⟨rfl, by intro; simp⟩

/-- The CANCEL validator accepts exactly `amendedCancelWellFormed`, and every
rejection carries a non-empty reason. -/
theorem validate_cancel_iff (params : List Value) :
    (validate_cancel_order_params params).1 = amendedCancelWellFormed params ∧
    ((validate_cancel_order_params params).1 = false →
      (validate_cancel_order_params params).2 ≠ "") := by
  unfold validate_cancel_order_params amendedCancelWellFormed
  by_cases hlen : params.length < 4
  · rw [if_pos hlen]
    cases h3 : safe_decimal_to_float (params.getD 3 default) <;>
      exact ⟨by simp [decide_eq_false (by omega : ¬ 4 ≤ params.length)],
        by intro; decide⟩
  · rw [if_neg hlen]
    have hlen4 : 4 ≤ params.length := not_lt.mp hlen
    cases h3 : safe_decimal_to_float (params.getD 3 default)
    case neg.some a =>
      by_cases e0 : pyStrEmpty (params.getD 0 default) = true <;>
        by_cases e1 : pyStrEmpty (params.getD 1 default) = true <;>
          by_cases e2 : pyStrEmpty (params.getD 2 default) = true <;>
            by_cases ea : a < 0 <;>
              refine ⟨?_, ?_⟩ <;>
                simp [-List.getD_eq_getElem?_getD, e0, e1, e2, ea, hlen4,
                  decide_zero_le, decide_eq_true, decide_eq_false]
    case neg.none => exact ⟨rfl, by intro; simp⟩

/-- C8 counterexample: a MATCH parameter list satisfying every condition the
claim states (10 entries, all numeric fields convertible, amount > 0,
price > 0, dollarValue > 0, fee ≥ 0) whose maker account is empty: the code
rejects it, so the claim's "iff" fails. -/
theorem C8_validator_counterexample :
    claimMatchWellFormed cexMatchParams = true ∧
    (validate_match_order_params cexMatchParams).1 = false ∧
    claimCancelWellFormed [Value.str "", Value.str "o1", Value.str "KDA",
      Value.num 1] = true ∧
    (validate_cancel_order_params [Value.str "", Value.str "o1",
      Value.str "KDA", Value.num 1]).1 = false := by
  refine ⟨by decide, rfl, by decide, rfl⟩

/-- C8 amended: the PLACE validator accepts exactly the claim's conditions;
the MATCH validator accepts exactly the claim's conditions strengthened with
non-empty maker, taker, orderId and pair; the CANCEL validator accepts
exactly the claim's conditions strengthened with non-empty account and
orderId; and every rejection carries a non-empty (descriptive) reason
string. -/
theorem C8_validators_amended (params : List Value) :
    (validate_place_order_params params).1 = claimPlaceWellFormed params ∧
    (validate_match_order_params params).1 = amendedMatchWellFormed params ∧
    (validate_cancel_order_params params).1 = amendedCancelWellFormed params ∧
    ((validate_place_order_params params).1 = false →
      (validate_place_order_params params).2 ≠ "") ∧
    ((validate_match_order_params params).1 = false →
      (validate_match_order_params params).2 ≠ "") ∧
    ((validate_cancel_order_params params).1 = false →
      (validate_cancel_order_params params).2 ≠ "") :=
  ⟨(validate_place_iff params).1, (validate_match_iff params).1,
   (validate_cancel_iff params).1, (validate_place_iff params).2,
   (validate_match_iff params).2, (validate_cancel_iff params).2⟩

/-- Witness for `C8_validators_amended` at the empty-maker parameter list,
discharging the rejection-reason implication there. -/
theorem C8_validators_amended_witness :
    (validate_match_order_params cexMatchParams).1 =
      amendedMatchWellFormed cexMatchParams ∧
    (validate_match_order_params cexMatchParams).2 ≠ "" :=
  ⟨(C8_validators_amended cexMatchParams).2.1,
   (C8_validators_amended cexMatchParams).2.2.2.2.1 rfl⟩

/-! ## Failure semantics of the run loop (claims C9 and C10) -/

/-- If no batch write fails at any visited height, the loop never raises —
whatever the events are (malformed events, unknown order ids and mismatched
accounts are all handled inside the processing phase without raising). -/
theorem runLoop_no_raise (fm : FailureModel) (ebh : List (Nat × List RawEvent)) :
    ∀ (hs : List Nat) (st : RunState),
      (∀ x ∈ hs, fm.batchFails x = false) → (runLoop fm ebh hs st).2 = false
  | [], _, _ => rfl
  | h :: hs, st, hall => by
    have hfh : fm.batchFails h = false := hall h (List.mem_cons_self h hs)
    simp only [runLoop, hfh, Bool.false_eq_true, if_false]
    exact runLoop_no_raise fm ebh hs _
      (fun x hx => hall x (List.mem_cons_of_mem h hx))

/-- If the loop raised, it did so at the first height whose batch write
failed; every earlier height was fully committed and the watermark ended at
the value accumulated by the earlier heights' watermark writes. -/
theorem runLoop_abort (fm : FailureModel) (ebh : List (Nat × List RawEvent)) :
    ∀ (hs : List Nat) (st : RunState),
      (runLoop fm ebh hs st).2 = true →
      ∃ pre hbad post, hs = pre ++ hbad :: post ∧
        (∀ x ∈ pre, fm.batchFails x = false) ∧
        fm.batchFails hbad = true ∧
        (runLoop fm ebh hs st).1.watermark =
          pre.foldl (fun wm x => update_last_processed_height fm x wm)
            st.watermark
  | [], st, hr => by simp [runLoop] at hr
  | h :: hs, st, hr => by
    by_cases hfh : fm.batchFails h = true
    · refine ⟨[], h, hs, rfl, by simp, hfh, ?_⟩
      simp [runLoop, hfh]
    · have hfh' : fm.batchFails h = false := by
        cases hb : fm.batchFails h
        · rfl
        · exact absurd hb hfh
      have hr2 : (runLoop fm ebh hs
          ⟨(executeBatch st.store st.trades
              (processHeightEvents st.store h
                (((ebh.find? (fun p => p.1 == h)).map (fun p => p.2)).getD []))).1,
            (executeBatch st.store st.trades
              (processHeightEvents st.store h
                (((ebh.find? (fun p => p.1 == h)).map (fun p => p.2)).getD []))).2,
            update_last_processed_height fm h st.watermark⟩).2 = true := by
        simpa [runLoop, hfh'] using hr
      obtain ⟨pre, hbad, post, hsplit, hpre, hbadf, hwm⟩ :=
        runLoop_abort fm ebh hs _ hr2
      refine ⟨h :: pre, hbad, post, by rw [hsplit]; rfl, ?_, hbadf, ?_⟩
      · intro x hx
        rcases List.mem_cons.mp hx with rfl | hx
        · exact hfh'
        · exact hpre x hx
      · rw [List.foldl_cons]
        have hred : (runLoop fm ebh (h :: hs) st).1.watermark =
            (runLoop fm ebh hs
              ⟨(executeBatch st.store st.trades
                  (processHeightEvents st.store h
                    (((ebh.find? (fun p => p.1 == h)).map (fun p => p.2)).getD []))).1,
                (executeBatch st.store st.trades
                  (processHeightEvents st.store h
                    (((ebh.find? (fun p => p.1 == h)).map (fun p => p.2)).getD []))).2,
                update_last_processed_height fm h st.watermark⟩).1.watermark := by
          simp [runLoop, hfh']
        rw [hred, hwm]

/-- C9 counterexample: a run in which the watermark write at height 5 fails
returns normally (no exception propagates) with the watermark left at its
previous value 0 — the failure is not fatal, contradicting the claim. -/
theorem C9_watermark_failure_counterexample :
    watermarkAlwaysFails.watermarkWriteFails 5 = true ∧
    runAll watermarkAlwaysFails [(5, [])] ⟨[], [], 0⟩ = (⟨[], [], 0⟩, false) :=
  ⟨rfl, rfl⟩

/-- C9 amended: the run raises to its caller only when an order/trade batch
write fails — never on domain-validation failures, which are absorbed during
the processing phase (part 1, for arbitrary event batches); a failure of the
watermark write itself is caught and logged, never propagated, leaving the
watermark at its previous value (part 2); and when the run does abort, it
aborts at the first height whose batch write failed, with the watermark
equal to the value accumulated by the watermark writes of the heights
committed before it (part 3). -/
theorem C9_store_failure_semantics :
    (∀ (fm : FailureModel) (ebh : List (Nat × List RawEvent)) (st : RunState),
      (∀ x ∈ sortedHeights ebh, fm.batchFails x = false) →
      (runAll fm ebh st).2 = false) ∧
    (∀ (fm : FailureModel) (h wm : Nat),
      fm.watermarkWriteFails h = true →
      update_last_processed_height fm h wm = wm) ∧
    (∀ (fm : FailureModel) (ebh : List (Nat × List RawEvent)) (st : RunState),
      (runAll fm ebh st).2 = true →
      ∃ pre hbad post, sortedHeights ebh = pre ++ hbad :: post ∧
        (∀ x ∈ pre, fm.batchFails x = false) ∧
        fm.batchFails hbad = true ∧
        (runAll fm ebh st).1.watermark =
          pre.foldl (fun wm x => update_last_processed_height fm x wm)
            st.watermark) := by
  refine ⟨?_, ?_, ?_⟩
  · intro fm ebh st hall
    exact runLoop_no_raise fm ebh (sortedHeights ebh) st hall
  · intro fm h wm hw
    unfold update_last_processed_height
    rw [if_pos hw]
  · intro fm ebh st hr
    exact runLoop_abort fm ebh (sortedHeights ebh) st hr

/-- Witness for `C9_store_failure_semantics`: a run whose watermark writes
all fail still returns normally, and the watermark write at height 5 leaves
the stored value untouched. -/
theorem C9_store_failure_semantics_witness :
    (∀ x ∈ sortedHeights [(5, ([] : List RawEvent))],
      watermarkAlwaysFails.batchFails x = false) ∧
    (runAll watermarkAlwaysFails [(5, [])] ⟨[], [], 0⟩).2 = false ∧
    watermarkAlwaysFails.watermarkWriteFails 5 = true ∧
    update_last_processed_height watermarkAlwaysFails 5 0 = 0 :=
  ⟨fun _ _ => rfl,
   C9_store_failure_semantics.1 watermarkAlwaysFails [(5, [])] ⟨[], [], 0⟩
     (fun _ _ => rfl),
   rfl,
   C9_store_failure_semantics.2.1 watermarkAlwaysFails 5 0 rfl⟩

/-- C10: the watermark read returns 0 both when the watermark document is
absent and when the read itself raises; consequently, after such a read the
`height > 0` fetch filter keeps every event with positive height — the run
reprocesses everything from height 0. -/
theorem C10_watermark_read_error (r : WatermarkRead)
    (hr : r = .err ∨ r = .ok none) :
    get_last_processed_height r = 0 ∧
    (∀ evs : List RawEvent, (∀ e ∈ evs, 0 < e.height) →
      fetchFilter (get_last_processed_height r) evs = evs) := by
  have h0 : get_last_processed_height r = 0 := by
    rcases hr with rfl | rfl <;> rfl
  refine ⟨h0, fun evs hall => ?_⟩
  rw [h0]
  unfold fetchFilter
  rw [List.filter_eq_self]
  intro e he
  simpa using hall e he

/-- Witness for `C10_watermark_read_error` at a failed read and a concrete
event list. -/
theorem C10_watermark_read_error_witness :
    get_last_processed_height .err = 0 ∧
    fetchFilter (get_last_processed_height .err) [sampleRawEvent] =
      [sampleRawEvent] :=
  ⟨(C10_watermark_read_error .err (Or.inl rfl)).1,
   (C10_watermark_read_error .err (Or.inl rfl)).2 [sampleRawEvent]
     (by intro e he; rw [List.mem_singleton] at he; subst he; exact Nat.succ_pos 2)⟩

end ChipsIndexer
